import Mathlib

/-!
A shallow embedding of `src/main.rs` of the `generate_drun_bench_plots`
repository: a batch tool that augments canister performance-trace CSV files
with three running cumulative columns and drives gnuplot to render one PNG
per metric.

Modelling conventions:
* CSV records are `List String`; `csv::StringRecord::get i` is `List.get? i`
  and `push_field s` is `· ++ [s]`.
* The CSV reading layer (an external crate) is abstracted: the transform
  receives the header row and the list of data-row read results, where
  `none` stands for a `csv::Error` produced while iterating
  `reader.into_records()`.
* Machine integers: `u64` values are `Nat` together with explicit
  `< 2 ^ 64` checks.  `u64::from_str` and `u64::to_string` are modelled
  character by character.  The `+=` updates of the three accumulators are
  modelled with an overflow check that aborts (`TError.overflowPanic`),
  which is the behaviour of the default (dev) cargo profile; a release
  build would instead wrap modulo `2 ^ 64`, which is noted where relevant.
* Panics (`unwrap`, arithmetic overflow) and returned `Err` values both
  abort the whole run; they are distinguished as `TError` constructors.
* File-system side effects are recorded as an explicit event trace
  (`Event`), in the order the corresponding calls appear in the source.
-/

namespace DrunPlots

/-- The modulus of the Rust `u64` type. -/
def U64MOD : Nat := 2 ^ 64

/-- Value of an ASCII decimal digit character, as accepted by
`u64::from_str` (only `0`-`9`). -/
def decDigitVal (c : Char) : Option Nat :=
  if 48 ≤ c.toNat ∧ c.toNat ≤ 57 then some (c.toNat - 48) else none

/-- The accumulating digit loop of Rust `u64::from_str`: fails on the first
non-digit character. -/
def parseDigitsAux (acc : Nat) : List Char → Option Nat
  | [] => some acc
  | c :: cs =>
    match decDigitVal c with
    | none => none
    | some d => parseDigitsAux (acc * 10 + d) cs

/-- `u64::from_str` strips one optional leading `+` sign. -/
def stripSign : List Char → List Char
  | [] => []
  | c :: rest => if c = '+' then rest else c :: rest

/-- Rust `<u64 as FromStr>::from_str` on a list of characters: an optional
leading `+`, then at least one decimal digit, and the value must fit in 64
bits (Rust checks overflow at every step of the loop; since the running
value of the loop never decreases, checking the final value once is
equivalent). -/
def parseU64Chars (cs : List Char) : Option Nat :=
  if (stripSign cs).isEmpty then none
  else
    match parseDigitsAux 0 (stripSign cs) with
    | none => none
    | some v => if v < U64MOD then some v else none

/-- Rust `str::parse::<u64>` on a string field. -/
def parseU64 (s : String) : Option Nat := parseU64Chars s.data

/-- Fuel-indexed decimal printer (most significant digit first); any
`fuel ≥ n` produces the digits of `n` (and `[]` for `n = 0`). -/
def natToCharsAux : Nat → Nat → List Char
  | 0, _ => []
  | fuel + 1, n =>
    if n = 0 then [] else natToCharsAux fuel (n / 10) ++ [Char.ofNat (n % 10 + 48)]

/-- Rust `u64::to_string`: standard decimal notation, no sign, no leading
zeros, and `"0"` for zero. -/
def natToChars (n : Nat) : List Char :=
  if n = 0 then ['0'] else natToCharsAux n n

/-- `u64::to_string` producing a string field. -/
def natToStr (n : Nat) : String := String.mk (natToChars n)

theorem parseDigitsAux_append (a b : List Char) :
    ∀ acc, parseDigitsAux acc (a ++ b) =
      match parseDigitsAux acc a with
      | none => none
      | some acc2 => parseDigitsAux acc2 b := by
  induction a with
  | nil => intro acc; rfl
  | cons c cs ih =>
    intro acc
    simp only [List.cons_append, parseDigitsAux]
    cases decDigitVal c with
    | none => rfl
    | some d => exact ih _

theorem decDigitVal_digitChar (d : Nat) (hd : d < 10) :
    decDigitVal (Char.ofNat (d + 48)) = some d := by
  interval_cases d <;> decide

theorem natToCharsAux_digits (fuel n : Nat) :
    ∀ c ∈ natToCharsAux fuel n, 48 ≤ c.toNat ∧ c.toNat ≤ 57 := by
  induction fuel generalizing n with
  | zero => intro c hc; simp [natToCharsAux] at hc
  | succ fuel ih =>
    intro c hc
    simp only [natToCharsAux] at hc
    by_cases h0 : n = 0
    · simp [h0] at hc
    · rw [if_neg h0] at hc
      rcases List.mem_append.mp hc with h | h
      · exact ih _ c h
      · have hd : n % 10 < 10 := Nat.mod_lt _ (by omega)
        have hc' : c = Char.ofNat (n % 10 + 48) := by simpa using h
        subst hc'
        set d := n % 10 with hdd
        clear_value d
        interval_cases d <;> decide

theorem parseDigitsAux_natToCharsAux (n : Nat) :
    ∀ fuel acc, n ≤ fuel →
      parseDigitsAux acc (natToCharsAux fuel n) =
        some (acc * 10 ^ (natToCharsAux fuel n).length + n) := by
  induction n using Nat.strong_induction_on with
  | _ n ih =>
    intro fuel acc hfuel
    match fuel with
    | 0 =>
      have hn : n = 0 := by omega
      subst hn
      simp [natToCharsAux, parseDigitsAux]
    | fuel + 1 =>
      by_cases h0 : n = 0
      · subst h0
        simp [natToCharsAux, parseDigitsAux]
      · have hdiv : n / 10 < n := Nat.div_lt_self (by omega) (by omega)
        have hfuel' : n / 10 ≤ fuel := by omega
        simp only [natToCharsAux, if_neg h0]
        rw [parseDigitsAux_append]
        rw [ih (n / 10) hdiv fuel acc hfuel']
        have hd : n % 10 < 10 := Nat.mod_lt _ (by omega)
        simp only [parseDigitsAux, decDigitVal_digitChar (n % 10) hd]
        rw [List.length_append]
        congr 1
        have hmod : n / 10 * 10 + n % 10 = n := Nat.div_add_mod' n 10
        calc (acc * 10 ^ (natToCharsAux fuel (n / 10)).length + n / 10) * 10 + n % 10
            = acc * (10 ^ (natToCharsAux fuel (n / 10)).length * 10) + (n / 10 * 10 + n % 10) := by
              ring
          _ = acc * 10 ^ ((natToCharsAux fuel (n / 10)).length + [Char.ofNat (n % 10 + 48)].length) + n := by
              rw [hmod]
              simp [pow_succ]

/-- Round trip: printing a `u64` value and parsing it back returns the same
value.  This is what makes the shifted column reads of
`add_cumulative_columns` (reading a just-pushed accumulator field) always
succeed. -/
theorem parseU64_natToStr (n : Nat) (h : n < U64MOD) :
    parseU64 (natToStr n) = some n := by
  by_cases h0 : n = 0
  · subst h0; decide
  · have hne : natToCharsAux n n ≠ [] := by
      have h1 : 1 ≤ n := by omega
      match n, h1 with
      | n + 1, _ =>
        simp only [natToCharsAux]
        rw [if_neg (by omega)]
        simp
    obtain ⟨c, cs, hx⟩ : ∃ c cs, natToCharsAux n n = c :: cs := by
      match hy : natToCharsAux n n, hne with
      | c :: cs, _ => exact ⟨c, cs, rfl⟩
    have hc : 48 ≤ c.toNat ∧ c.toNat ≤ 57 := by
      apply natToCharsAux_digits n n
      rw [hx]
      exact List.mem_cons_self _ _
    have hcp : ¬ c = '+' := by
      intro hcp
      subst hcp
      exact absurd hc (by decide)
    have hp := parseDigitsAux_natToCharsAux n n 0 (Nat.le_refl n)
    rw [hx] at hp
    have hp' : parseDigitsAux 0 (c :: cs) = some n := by
      rw [hp]
      norm_num
    unfold parseU64 natToStr
    have hdata : (String.mk (natToChars n)).data = natToChars n := rfl
    rw [hdata]
    unfold natToChars
    rw [if_neg h0, hx]
    unfold parseU64Chars
    have hstrip : stripSign (c :: cs) = c :: cs := by simp [stripSign, hcp]
    rw [hstrip, hp']
    simp [h]

/-- 1-based index of the instructions column in drun generated CSVs
(`INSTRUCTIONS_COL_IDX` in the source). -/
def INSTRUCTIONS_COL_IDX : Nat := 3

/-- 1-based index of the accessed host pages column
(`ACCESSED_HOST_PAGES_COL_IDX`). -/
def ACCESSED_HOST_PAGES_COL_IDX : Nat := 4

/-- 1-based index of the dirtied host pages column
(`DIRTIED_HOST_PAGES_COL_IDX`). -/
def DIRTIED_HOST_PAGES_COL_IDX : Nat := 5

/-- The ways `add_cumulative_columns` aborts the run.  The first three are
`Err` returns propagated with `?` (`Error::CSV1`, `Error::String`,
`Error::IntParseError`); the last three are panics, which also abort the
whole process because `main` never catches them. -/
inductive TError
  /-- A `csv::Error` produced while iterating `reader.into_records()`. -/
  | csvRead
  /-- The explicit `"CSV record does not have enough columns"` string error
  raised when `record.get(INSTRUCTIONS_COL_IDX - 1)` is `None`. -/
  | notEnoughColumns
  /-- A `ParseIntError` from `.parse::<u64>()?` on the instructions column. -/
  | intParseError
  /-- Panic of `.unwrap()` on a `None` from `record.get` for the accessed or
  dirtied column. -/
  | panicMissing
  /-- Panic of `.unwrap()` on a `ParseIntError` for the accessed or dirtied
  column. -/
  | panicParse
  /-- Panic of a `u64` `+=` that overflows (behaviour of the default dev
  profile; a release build would wrap modulo `2 ^ 64` instead). -/
  | overflowPanic
  deriving DecidableEq

/-- Lift an optional value into `Except`, with the given error for `None`
(`ok_or_else` / the implicit panic of `unwrap`). -/
def need (o : Option α) (e : TError) : Except TError α :=
  match o with
  | some a => Except.ok a
  | none => Except.error e

/-- A `u64` `+=` update: aborts on overflow (dev-profile semantics). -/
def checkedAdd (a b : Nat) : Except TError Nat :=
  if a + b < U64MOD then Except.ok (a + b) else Except.error TError.overflowPanic

@[simp] theorem ok_bind (a : α) (f : α → Except TError β) :
    (Except.ok a : Except TError α).bind f = f a := rfl

@[simp] theorem error_bind (e : TError) (f : α → Except TError β) :
    (Except.error e : Except TError α).bind f = Except.error e := rfl

@[simp] theorem need_some (a : α) (e : TError) : need (some a) e = Except.ok a := rfl

@[simp] theorem need_none (e : TError) : need (none : Option α) e = Except.error e := rfl

/-- The body of the `for record in &mut records` loop of
`add_cumulative_columns`, for one record: read and parse the instructions
column (an `Err` return on failure), update the first accumulator, push its
value, then do the same for the accessed and dirtied columns where a
missing field or a parse failure is an `unwrap` panic instead.  Note that
the two later `record.get` calls happen after the earlier `push_field`
calls, so they see the already-extended record.  Returns the extended
record together with the updated accumulators. -/
def processRow (r : List String) (t : Nat × Nat × Nat) :
    Except TError (List String × (Nat × Nat × Nat)) :=
  (need (r[INSTRUCTIONS_COL_IDX - 1]?) TError.notEnoughColumns).bind fun s1 =>
  (need (parseU64 s1) TError.intParseError).bind fun v1 =>
  (checkedAdd t.1 v1).bind fun t1 =>
  (need ((r ++ [natToStr t1])[ACCESSED_HOST_PAGES_COL_IDX - 1]?) TError.panicMissing).bind fun s2 =>
  (need (parseU64 s2) TError.panicParse).bind fun v2 =>
  (checkedAdd t.2.1 v2).bind fun t2 =>
  (need ((r ++ [natToStr t1] ++ [natToStr t2])[DIRTIED_HOST_PAGES_COL_IDX - 1]?) TError.panicMissing).bind fun s3 =>
  (need (parseU64 s3) TError.panicParse).bind fun v3 =>
  (checkedAdd t.2.2 v3).bind fun t3 =>
  Except.ok (r ++ [natToStr t1] ++ [natToStr t2] ++ [natToStr t3], (t1, t2, t3))

/-- The full augmentation loop: walks the records in file order threading
the three accumulators (initialised to zero by the caller), stopping at the
first failure. -/
def processRows : List (List String) → Nat × Nat × Nat →
    Except TError (List (List String) × (Nat × Nat × Nat))
  | [], t => Except.ok ([], t)
  | r :: rs, t =>
    (processRow r t).bind fun p =>
    (processRows rs p.2).bind fun q =>
    Except.ok (p.1 :: q.1, q.2)

/-- The `for record in reader.into_records() { records.push(record?) }`
loop: `none` stands for a `csv::Error` from the reader, which is propagated
immediately. -/
def collectRecords : List (Option (List String)) → Except TError (List (List String))
  | [] => Except.ok []
  | none :: _ => Except.error TError.csvRead
  | some r :: rest => (collectRecords rest).bind fun rs => Except.ok (r :: rs)

/-- The three header labels pushed onto the header record. -/
def newHeaderLabels : List String :=
  ["total instructions", "total accessed host pages", "total dirtied host pages"]

/-- File-system and process side effects of a run, in program order. -/
inductive Event
  /-- `NamedTempFile::new()` creating the output artifact for input `id`. -/
  | createTemp (id : Nat)
  /-- One `csv_writer.write_record` call on the temp file of input `id`
  (used for the header and for every data row). -/
  | writeTempRow (id : Nat)
  /-- Spawning the gnuplot subprocess for the named plot. -/
  | spawnGnuplot (plot : String)
  /-- `std::fs::write` of the captured gnuplot output to `<plot>.png`. -/
  | writePng (file : String)
  /-- Deletion of the temp file of input `id` (the `NamedTempFile` drop
  glue; never reached because `main` ends with `std::mem::forget`). -/
  | deleteTemp (id : Nat)
  deriving DecidableEq

/-- The fallible part of `add_cumulative_columns` before any file is
created: collect the records (propagating reader errors) and run the
augmentation loop with all three accumulators initialised to zero. -/
def tfResult (raw : List (Option (List String))) :
    Except TError (List (List String)) :=
  (collectRecords raw).bind fun records =>
  (processRows records (0, 0, 0)).bind fun p =>
  Except.ok p.1

/-- `add_cumulative_columns` for the file numbered `id`, as the pair of its
side-effect trace and its result.  Mirrors the source order: the header is
read and extended, all records are collected, the augmentation loop runs,
and only then is the temp file created and written.  On any error the
function returns before `NamedTempFile::new()`, so the trace is empty.
(I/O failures of the writer itself, after creation, are not modelled: on
that path the source drops the `NamedTempFile`, deleting the file again,
the `Err` makes the `unwrap` in `main` panic, and the run aborts rather
than completing.) -/
def addCumulativeRun (id : Nat) (headers : List String)
    (raw : List (Option (List String))) :
    List Event × Except TError (List String × List (List String)) :=
  match tfResult raw with
  | Except.error e => ([], Except.error e)
  | Except.ok rows =>
    (Event.createTemp id :: Event.writeTempRow id :: rows.map (fun _ => Event.writeTempRow id),
     Except.ok (headers ++ newHeaderLabels, rows))

/-- The static `FILES` list: (csv file name, display name). -/
def FILES : List (String × String) :=
  [("master_copying_gc.csv", "Simple scheduling"), ("scheduling.csv", "Smart scheduling")]

/-- The static `PLOTS` list: (metric name, 1-based gnuplot column index). -/
def PLOTS : List (String × Nat) :=
  [("instructions", INSTRUCTIONS_COL_IDX),
   ("accessed_host_pages", ACCESSED_HOST_PAGES_COL_IDX),
   ("dirtied_host_pages", DIRTIED_HOST_PAGES_COL_IDX),
   ("total_Wasm_pages_in_use", 6),
   ("total_instructions", 7),
   ("total_accessed_host_pages", 8),
   ("total_dirtied_host_pages", 9)]

/-- The transform phase of `main`: `FILES.iter().map(|f| add_cumulative_columns(f).unwrap())`.
`inputs` lists, for each entry of `FILES` in order, the parsed header of
that file and its data-row read results.  The `unwrap` aborts at the first
failing file, so later files are not touched; the Boolean records whether
the phase completed. -/
def transformPhase (id : Nat) : List (List String × List (Option (List String))) →
    List Event × Bool
  | [] => ([], true)
  | (hs, raw) :: rest =>
    match (addCumulativeRun id hs raw).2 with
    | Except.error _ => ((addCumulativeRun id hs raw).1, false)
    | Except.ok _ =>
      ((addCumulativeRun id hs raw).1 ++ (transformPhase (id + 1) rest).1,
       (transformPhase (id + 1) rest).2)

/-- The plot loop of `main`: for every `PLOTS` entry in order, spawn
gnuplot and write `<plot_name>.png`. -/
def plotEvents : List Event :=
  (PLOTS.map fun p => [Event.spawnGnuplot p.1, Event.writePng (p.1 ++ ".png")]).flatten

/-- Ids of the temp artifacts a trace has created, in creation order. -/
def createdIds (evs : List Event) : List Nat :=
  evs.filterMap fun e =>
    match e with
    | Event.createTemp id => some id
    | _ => none

/-- The whole of `main` as an event trace: transform every input file, and
if that phase completed render all seven plots; a completed run ends with
`std::mem::forget(files)`, so its destructors never run and no `deleteTemp`
event follows the plots.  If the transform phase aborts, the panic of the
`.unwrap()` unwinds (the default dev-profile `panic = "unwind"`): the
partially collected `Vec` of `NamedTempFile`s is dropped, which deletes the
already-created temp files, in order — the trailing `deleteTemp` events.
The gnuplot spawn, the stdin write and the PNG write of the plot loop are
modelled as succeeding (a failure of one of their `expect` calls on a real
run would likewise unwind and drop `files` before `mem::forget`, deleting
every temp file — another way a run can fail to complete). -/
def runMain (inputs : List (List String × List (Option (List String)))) : List Event :=
  if (transformPhase 0 inputs).2 then (transformPhase 0 inputs).1 ++ plotEvents
  else (transformPhase 0 inputs).1 ++
    (createdIds (transformPhase 0 inputs).1).map Event.deleteTemp

/-! ### Observation helpers used to state the claims -/

/-- Whether an `Except` value is a success. -/
def okB : Except TError α → Bool
  | Except.ok _ => true
  | Except.error _ => false

/-- Events of the plot loop (gnuplot spawn, PNG write). -/
def isPlotEvent : Event → Bool
  | Event.spawnGnuplot _ => true
  | Event.writePng _ => true
  | _ => false

/-- Events operating on a temp artifact (creation or a record write). -/
def isTempEvent : Event → Bool
  | Event.createTemp _ => true
  | Event.writeTempRow _ => true
  | _ => false

/-- Field `k` (0-based) of a record, defaulting to the empty string. -/
def colStr (k : Nat) (r : List String) : String := r[k]?.getD ""

/-- The `u64` value of field `k` of a record, defaulting to zero. -/
def colVal (k : Nat) (r : List String) : Nat := (parseU64 (colStr k r)).getD 0

/-- Sum of the values of 0-based column `k` over a list of records. -/
def sumCol (k : Nat) (rs : List (List String)) : Nat := (rs.map (colVal k)).sum

/-- A data row with at least 5 fields whose three tracked columns
(1-based positions 3, 4, 5) parse as `u64`. -/
def goodRow (r : List String) : Prop :=
  5 ≤ r.length ∧ (parseU64 (colStr 2 r)).isSome = true ∧
    (parseU64 (colStr 3 r)).isSome = true ∧ (parseU64 (colStr 4 r)).isSome = true

instance (r : List String) : Decidable (goodRow r) := by
  unfold goodRow; infer_instance

/-- 1-based column `k` of the record is present but does not parse as a
`u64`. -/
def badCol (r : List String) (k : Nat) : Bool :=
  match r[k - 1]? with
  | some s => (parseU64 s).isNone
  | none => false

/-- Some present tracked column (1-based position 3, 4 or 5) holds
non-integer text. -/
def badTracked (r : List String) : Bool :=
  badCol r INSTRUCTIONS_COL_IDX || badCol r ACCESSED_HOST_PAGES_COL_IDX ||
    badCol r DIRTIED_HOST_PAGES_COL_IDX

/-! ### Basic facts about the transform -/

theorem checkedAdd_lt {a b : Nat} (h : a + b < U64MOD) :
    checkedAdd a b = Except.ok (a + b) := if_pos h

theorem checkedAdd_ge {a b : Nat} (h : ¬ a + b < U64MOD) :
    checkedAdd a b = Except.error TError.overflowPanic := if_neg h

theorem option_eq_some_getD {o : Option α} (h : o.isSome = true) (d : α) :
    o = some (o.getD d) := by
  cases o with
  | none => simp at h
  | some a => rfl

theorem getElem?_colStr {r : List String} {k : Nat} (hk : k < r.length) :
    r[k]? = some (colStr k r) := by
  cases h : r[k]? with
  | none =>
    rw [List.getElem?_eq_none_iff] at h
    omega
  | some s => simp [colStr, h]

theorem parseU64_colStr_of_isSome {r : List String} {k : Nat}
    (h : (parseU64 (colStr k r)).isSome = true) :
    parseU64 (colStr k r) = some (colVal k r) :=
  option_eq_some_getD h 0

theorem processRows_nil (t : Nat × Nat × Nat) :
    processRows [] t = Except.ok ([], t) := rfl

theorem processRows_cons (r : List String) (rs : List (List String)) (t : Nat × Nat × Nat) :
    processRows (r :: rs) t =
      (processRow r t).bind fun p =>
      (processRows rs p.2).bind fun q =>
      Except.ok (p.1 :: q.1, q.2) := rfl

/-- Sum of a column over a cons. -/
theorem sumCol_cons (k : Nat) (r : List String) (rs : List (List String)) :
    sumCol k (r :: rs) = colVal k r + sumCol k rs := by
  simp [sumCol]

/-- Evaluation of the loop body on a well-formed row with non-overflowing
accumulators: the three source columns are read (the appended fields do not
shift them, because the row has at least 5 fields), and the three updated
totals are appended. -/
theorem processRow_eval (r : List String) (t1 t2 t3 : Nat) (hg : goodRow r)
    (b1 : t1 + colVal 2 r < U64MOD) (b2 : t2 + colVal 3 r < U64MOD)
    (b3 : t3 + colVal 4 r < U64MOD) :
    processRow r (t1, t2, t3) = Except.ok
      (r ++ [natToStr (t1 + colVal 2 r), natToStr (t2 + colVal 3 r), natToStr (t3 + colVal 4 r)],
       (t1 + colVal 2 r, t2 + colVal 3 r, t3 + colVal 4 r)) := by
  obtain ⟨hlen, hs2, hs3, hs4⟩ := hg
  have h2 : r[2]? = some (colStr 2 r) := getElem?_colStr (by omega)
  have h3 : r[3]? = some (colStr 3 r) := getElem?_colStr (by omega)
  have h4 : r[4]? = some (colStr 4 r) := getElem?_colStr (by omega)
  have ha3 : (r ++ [natToStr (t1 + colVal 2 r)])[3]? = some (colStr 3 r) := by
    rw [List.getElem?_append_left (by omega)]
    exact h3
  have ha4 : (r ++ [natToStr (t1 + colVal 2 r)] ++ [natToStr (t2 + colVal 3 r)])[4]? =
      some (colStr 4 r) := by
    rw [List.getElem?_append_left (by simp; omega), List.getElem?_append_left (by omega)]
    exact h4
  unfold processRow
  rw [show INSTRUCTIONS_COL_IDX - 1 = 2 from rfl,
      show ACCESSED_HOST_PAGES_COL_IDX - 1 = 3 from rfl,
      show DIRTIED_HOST_PAGES_COL_IDX - 1 = 4 from rfl]
  rw [h2]
  simp only [need_some, ok_bind]
  rw [parseU64_colStr_of_isSome hs2]
  simp only [need_some, ok_bind]
  rw [checkedAdd_lt b1]
  simp only [ok_bind]
  rw [ha3]
  simp only [need_some, ok_bind]
  rw [parseU64_colStr_of_isSome hs3]
  simp only [need_some, ok_bind]
  rw [checkedAdd_lt b2]
  simp only [ok_bind]
  rw [ha4]
  simp only [need_some, ok_bind]
  rw [parseU64_colStr_of_isSome hs4]
  simp only [need_some, ok_bind]
  rw [checkedAdd_lt b3]
  simp only [ok_bind]
  simp

/-- On a well-formed row, success of the loop body forces the three
accumulator updates not to have overflowed. -/
theorem processRow_good_inv (r : List String) (t1 t2 t3 : Nat)
    (out : List String × (Nat × Nat × Nat)) (hg : goodRow r)
    (h : processRow r (t1, t2, t3) = Except.ok out) :
    t1 + colVal 2 r < U64MOD ∧ t2 + colVal 3 r < U64MOD ∧ t3 + colVal 4 r < U64MOD ∧
      out = (r ++ [natToStr (t1 + colVal 2 r), natToStr (t2 + colVal 3 r),
                   natToStr (t3 + colVal 4 r)],
             (t1 + colVal 2 r, t2 + colVal 3 r, t3 + colVal 4 r)) := by
  obtain ⟨hlen, hs2, hs3, hs4⟩ := hg
  have h2 : r[2]? = some (colStr 2 r) := getElem?_colStr (by omega)
  have h3 : r[3]? = some (colStr 3 r) := getElem?_colStr (by omega)
  have h4 : r[4]? = some (colStr 4 r) := getElem?_colStr (by omega)
  unfold processRow at h
  rw [show INSTRUCTIONS_COL_IDX - 1 = 2 from rfl,
      show ACCESSED_HOST_PAGES_COL_IDX - 1 = 3 from rfl,
      show DIRTIED_HOST_PAGES_COL_IDX - 1 = 4 from rfl] at h
  rw [h2] at h
  simp only [need_some, ok_bind] at h
  rw [parseU64_colStr_of_isSome hs2] at h
  simp only [need_some, ok_bind] at h
  by_cases b1 : t1 + colVal 2 r < U64MOD
  case neg => rw [checkedAdd_ge b1] at h; simp at h
  rw [checkedAdd_lt b1] at h
  simp only [ok_bind] at h
  rw [List.getElem?_append_left (by omega), h3] at h
  simp only [need_some, ok_bind] at h
  rw [parseU64_colStr_of_isSome hs3] at h
  simp only [need_some, ok_bind] at h
  by_cases b2 : t2 + colVal 3 r < U64MOD
  case neg => rw [checkedAdd_ge b2] at h; simp at h
  rw [checkedAdd_lt b2] at h
  simp only [ok_bind] at h
  rw [List.getElem?_append_left (by simp; omega), List.getElem?_append_left (by omega), h4] at h
  simp only [need_some, ok_bind] at h
  rw [parseU64_colStr_of_isSome hs4] at h
  simp only [need_some, ok_bind] at h
  by_cases b3 : t3 + colVal 4 r < U64MOD
  case neg => rw [checkedAdd_ge b3] at h; simp at h
  rw [checkedAdd_lt b3] at h
  simp only [ok_bind, Except.ok.injEq] at h
  refine ⟨b1, b2, b3, ?_⟩
  rw [← h]
  simp

/-- Closed form of the augmentation loop on well-formed rows whose column
sums do not overflow the accumulators: it succeeds, the final accumulators
are the initial ones plus the column sums, and the `i`-th output row is the
`i`-th input row with the three prefix sums (rows `0..i` inclusive)
appended as decimal text. -/
theorem processRows_good_eval (records : List (List String)) :
    ∀ t1 t2 t3 : Nat, (∀ r ∈ records, goodRow r) →
    t1 + sumCol 2 records < U64MOD → t2 + sumCol 3 records < U64MOD →
    t3 + sumCol 4 records < U64MOD →
    ∃ out, processRows records (t1, t2, t3) =
        Except.ok (out, (t1 + sumCol 2 records, t2 + sumCol 3 records, t3 + sumCol 4 records)) ∧
      out.length = records.length ∧
      ∀ i < records.length, out[i]? = some (records[i]?.getD [] ++
        [natToStr (t1 + sumCol 2 (records.take (i + 1))),
         natToStr (t2 + sumCol 3 (records.take (i + 1))),
         natToStr (t3 + sumCol 4 (records.take (i + 1)))]) := by
  induction records with
  | nil =>
    intro t1 t2 t3 _ _ _ _
    exact ⟨[], by simp [processRows_nil, sumCol], by simp, by simp⟩
  | cons r rs ih =>
    intro t1 t2 t3 hwf b1 b2 b3
    have hgr : goodRow r := hwf r (List.mem_cons_self _ _)
    rw [sumCol_cons] at b1 b2 b3
    have b1' : t1 + colVal 2 r < U64MOD := by omega
    have b2' : t2 + colVal 3 r < U64MOD := by omega
    have b3' : t3 + colVal 4 r < U64MOD := by omega
    obtain ⟨out', hps, hlen, hidx⟩ :=
      ih (t1 + colVal 2 r) (t2 + colVal 3 r) (t3 + colVal 4 r)
        (fun r' hr' => hwf r' (List.mem_cons_of_mem _ hr'))
        (by omega) (by omega) (by omega)
    refine ⟨(r ++ [natToStr (t1 + colVal 2 r), natToStr (t2 + colVal 3 r),
              natToStr (t3 + colVal 4 r)]) :: out', ?_, by simpa using hlen, ?_⟩
    · rw [processRows_cons, processRow_eval r t1 t2 t3 hgr b1' b2' b3']
      simp only [ok_bind]
      rw [hps]
      simp only [ok_bind, sumCol_cons, Nat.add_assoc]
    · intro i hi
      match i with
      | 0 =>
        simp [List.take_succ_cons, sumCol_cons, sumCol]
      | i + 1 =>
        have hi' : i < rs.length := by simpa using hi
        have := hidx i hi'
        simp only [List.getElem?_cons_succ, List.take_succ_cons, sumCol_cons]
        rw [this]
        simp only [Nat.add_assoc]

/-- On well-formed rows, success of the loop means no accumulator
overflowed: starting from in-range accumulators, the totals plus the column
sums stay below `2 ^ 64`. -/
theorem processRows_good_bounds (records : List (List String)) :
    ∀ t1 t2 t3 : Nat, ∀ out : List (List String) × (Nat × Nat × Nat),
    (∀ r ∈ records, goodRow r) →
    processRows records (t1, t2, t3) = Except.ok out →
    t1 < U64MOD → t2 < U64MOD → t3 < U64MOD →
    t1 + sumCol 2 records < U64MOD ∧ t2 + sumCol 3 records < U64MOD ∧
      t3 + sumCol 4 records < U64MOD := by
  induction records with
  | nil =>
    intro t1 t2 t3 out _ _ h1 h2 h3
    simp [sumCol]
    exact ⟨h1, h2, h3⟩
  | cons r rs ih =>
    intro t1 t2 t3 out hwf h h1 h2 h3
    have hgr : goodRow r := hwf r (List.mem_cons_self _ _)
    rw [processRows_cons] at h
    cases hp : processRow r (t1, t2, t3) with
    | error e => rw [hp] at h; simp at h
    | ok p =>
      rw [hp] at h
      simp only [ok_bind] at h
      cases hq : processRows rs p.2 with
      | error e => rw [hq] at h; simp at h
      | ok q =>
        obtain ⟨c1, c2, c3, hpeq⟩ := processRow_good_inv r t1 t2 t3 p hgr hp
        rw [hpeq] at hq
        have := ih (t1 + colVal 2 r) (t2 + colVal 3 r) (t3 + colVal 4 r) q
          (fun r' hr' => hwf r' (List.mem_cons_of_mem _ hr')) hq c1 c2 c3
        simp only [sumCol_cons]
        omega

/-- Whatever the input row, a successful loop body appends exactly three
fields to it (used for the frame property, which assumes nothing about the
row contents beyond acceptance). -/
theorem processRow_ok_shape (r : List String) (t : Nat × Nat × Nat)
    (out : List String × (Nat × Nat × Nat))
    (h : processRow r t = Except.ok out) :
    ∃ x y z, out.1 = r ++ [x, y, z] := by
  unfold processRow at h
  cases hg1 : r[INSTRUCTIONS_COL_IDX - 1]? with
  | none => rw [hg1] at h; simp at h
  | some s1 =>
  rw [hg1] at h
  simp only [need_some, ok_bind] at h
  cases hv1 : parseU64 s1 with
  | none => rw [hv1] at h; simp at h
  | some v1 =>
  rw [hv1] at h
  simp only [need_some, ok_bind] at h
  by_cases c1 : t.1 + v1 < U64MOD
  case neg => rw [checkedAdd_ge c1] at h; simp at h
  rw [checkedAdd_lt c1] at h
  simp only [ok_bind] at h
  cases hg2 : (r ++ [natToStr (t.1 + v1)])[ACCESSED_HOST_PAGES_COL_IDX - 1]? with
  | none => rw [hg2] at h; simp at h
  | some s2 =>
  rw [hg2] at h
  simp only [need_some, ok_bind] at h
  cases hv2 : parseU64 s2 with
  | none => rw [hv2] at h; simp at h
  | some v2 =>
  rw [hv2] at h
  simp only [need_some, ok_bind] at h
  by_cases c2 : t.2.1 + v2 < U64MOD
  case neg => rw [checkedAdd_ge c2] at h; simp at h
  rw [checkedAdd_lt c2] at h
  simp only [ok_bind] at h
  cases hg3 : (r ++ [natToStr (t.1 + v1)] ++ [natToStr (t.2.1 + v2)])[DIRTIED_HOST_PAGES_COL_IDX - 1]? with
  | none => rw [hg3] at h; simp at h
  | some s3 =>
  rw [hg3] at h
  simp only [need_some, ok_bind] at h
  cases hv3 : parseU64 s3 with
  | none => rw [hv3] at h; simp at h
  | some v3 =>
  rw [hv3] at h
  simp only [need_some, ok_bind] at h
  by_cases c3 : t.2.2 + v3 < U64MOD
  case neg => rw [checkedAdd_ge c3] at h; simp at h
  rw [checkedAdd_lt c3] at h
  simp only [ok_bind, Except.ok.injEq] at h
  refine ⟨natToStr (t.1 + v1), natToStr (t.2.1 + v2), natToStr (t.2.2 + v3), ?_⟩
  rw [← h]
  simp

/-- Acceptance preserves the rows: the output has one row per input row,
and each is the input row with exactly three fields appended. -/
theorem processRows_shape (records : List (List String)) :
    ∀ t : Nat × Nat × Nat, ∀ out : List (List String) × (Nat × Nat × Nat),
    processRows records t = Except.ok out →
    out.1.length = records.length ∧
      ∀ i < records.length, ∃ x y z,
        out.1[i]? = some (records[i]?.getD [] ++ [x, y, z]) := by
  induction records with
  | nil =>
    intro t out h
    rw [processRows_nil] at h
    cases h
    simp
  | cons r rs ih =>
    intro t out h
    rw [processRows_cons] at h
    cases hp : processRow r t with
    | error e => rw [hp] at h; simp at h
    | ok p =>
      rw [hp] at h
      simp only [ok_bind] at h
      cases hq : processRows rs p.2 with
      | error e => rw [hq] at h; simp at h
      | ok q =>
        rw [hq] at h
        simp only [ok_bind, Except.ok.injEq] at h
        obtain ⟨hlen, hidx⟩ := ih p.2 q hq
        obtain ⟨x, y, z, hxyz⟩ := processRow_ok_shape r t p hp
        constructor
        · rw [← h]
          simpa using hlen
        · intro i hi
          match i with
          | 0 =>
            refine ⟨x, y, z, ?_⟩
            rw [← h]
            simp [hxyz]
          | i + 1 =>
            have hi' : i < rs.length := by simpa using hi
            obtain ⟨x', y', z', hx'⟩ := hidx i hi'
            refine ⟨x', y', z', ?_⟩
            rw [← h]
            simpa using hx'

/-! ### Failure cases of the loop body -/

/-- A row with fewer than 3 fields trips the explicit column-count check
(the first thing the loop body does), with the string error. -/
theorem processRow_short (r : List String) (t : Nat × Nat × Nat)
    (h : r.length < 3) :
    processRow r t = Except.error TError.notEnoughColumns := by
  have h2 : r[INSTRUCTIONS_COL_IDX - 1]? = none := by
    rw [List.getElem?_eq_none_iff]
    show r.length ≤ 2
    omega
  unfold processRow
  rw [h2]
  simp

/-- A row in which some present tracked column (1-based position 3, 4 or 5)
holds non-integer text always makes the loop body abort, whatever the
accumulator values: position 3 through the propagated `ParseIntError`,
positions 4 and 5 through an `unwrap` panic (the pushed fields cannot mask
a present source column, they only extend the record past it). -/
theorem processRow_fails_of_badTracked (r : List String)
    (hb : badTracked r = true) :
    ∀ t : Nat × Nat × Nat, ∃ e, processRow r t = Except.error e := by
  intro t
  unfold badTracked at hb
  simp only [Bool.or_eq_true] at hb
  unfold processRow
  rcases hb with (hb | hb) | hb
  · -- the instructions column itself does not parse
    unfold badCol at hb
    cases hg : r[INSTRUCTIONS_COL_IDX - 1]? with
    | none => rw [hg] at hb; simp at hb
    | some s =>
      rw [hg] at hb
      simp only [Option.isNone_iff_eq_none] at hb
      simp only [need_some, ok_bind]
      rw [hb]
      simp only [need_none, error_bind]
      exact ⟨TError.intParseError, rfl⟩
  · -- the accessed column is present (so the row has ≥ 4 fields) but bad
    unfold badCol at hb
    cases hg : r[ACCESSED_HOST_PAGES_COL_IDX - 1]? with
    | none => rw [hg] at hb; simp at hb
    | some s =>
      rw [hg] at hb
      simp only [Option.isNone_iff_eq_none] at hb
      have hlen : 3 < r.length := by
        by_contra hc
        rw [show ACCESSED_HOST_PAGES_COL_IDX - 1 = 3 from rfl,
            List.getElem?_eq_none_iff.mpr (by omega)] at hg
        cases hg
      cases hg1 : r[INSTRUCTIONS_COL_IDX - 1]? with
      | none =>
        exact ⟨TError.notEnoughColumns, rfl⟩
      | some s1 =>
        simp only [need_some, ok_bind]
        cases hv1 : parseU64 s1 with
        | none => exact ⟨TError.intParseError, rfl⟩
        | some v1 =>
          simp only [need_some, ok_bind]
          by_cases c1 : t.1 + v1 < U64MOD
          case neg => rw [checkedAdd_ge c1]; exact ⟨TError.overflowPanic, rfl⟩
          rw [checkedAdd_lt c1]
          simp only [ok_bind]
          rw [show ACCESSED_HOST_PAGES_COL_IDX - 1 = 3 from rfl] at hg ⊢
          rw [List.getElem?_append_left hlen, hg]
          simp only [need_some, ok_bind]
          rw [hb]
          simp only [need_none, error_bind]
          exact ⟨TError.panicParse, rfl⟩
  · -- the dirtied column is present (so the row has ≥ 5 fields) but bad
    unfold badCol at hb
    cases hg : r[DIRTIED_HOST_PAGES_COL_IDX - 1]? with
    | none => rw [hg] at hb; simp at hb
    | some s =>
      rw [hg] at hb
      simp only [Option.isNone_iff_eq_none] at hb
      have hlen : 4 < r.length := by
        by_contra hc
        rw [show DIRTIED_HOST_PAGES_COL_IDX - 1 = 4 from rfl,
            List.getElem?_eq_none_iff.mpr (by omega)] at hg
        cases hg
      cases hg1 : r[INSTRUCTIONS_COL_IDX - 1]? with
      | none =>
        exact ⟨TError.notEnoughColumns, rfl⟩
      | some s1 =>
        simp only [need_some, ok_bind]
        cases hv1 : parseU64 s1 with
        | none => exact ⟨TError.intParseError, rfl⟩
        | some v1 =>
          simp only [need_some, ok_bind]
          by_cases c1 : t.1 + v1 < U64MOD
          case neg => rw [checkedAdd_ge c1]; exact ⟨TError.overflowPanic, rfl⟩
          rw [checkedAdd_lt c1]
          simp only [ok_bind]
          cases hg2 : (r ++ [natToStr (t.1 + v1)])[ACCESSED_HOST_PAGES_COL_IDX - 1]? with
          | none =>
            exact ⟨TError.panicMissing, rfl⟩
          | some s2 =>
            simp only [need_some, ok_bind]
            cases hv2 : parseU64 s2 with
            | none => exact ⟨TError.panicParse, rfl⟩
            | some v2 =>
              simp only [need_some, ok_bind]
              by_cases c2 : t.2.1 + v2 < U64MOD
              case neg => rw [checkedAdd_ge c2]; exact ⟨TError.overflowPanic, rfl⟩
              rw [checkedAdd_lt c2]
              simp only [ok_bind]
              rw [show DIRTIED_HOST_PAGES_COL_IDX - 1 = 4 from rfl] at hg ⊢
              rw [List.getElem?_append_left (by simp; omega),
                  List.getElem?_append_left hlen, hg]
              simp only [need_some, ok_bind]
              rw [hb]
              simp only [need_none, error_bind]
              exact ⟨TError.panicParse, rfl⟩

/-- If some record of the list always makes the loop body fail, the whole
loop fails (it stops at the first failing record, which may be an earlier
one). -/
theorem processRows_error_of_mem (records : List (List String))
    (r : List String) (hr : r ∈ records)
    (hf : ∀ t : Nat × Nat × Nat, ∃ e, processRow r t = Except.error e) :
    ∀ t : Nat × Nat × Nat, ∃ e, processRows records t = Except.error e := by
  induction records with
  | nil => cases hr
  | cons r0 rs ih =>
    intro t
    rw [processRows_cons]
    rcases List.mem_cons.mp hr with heq | hmem
    · subst heq
      obtain ⟨e, he⟩ := hf t
      rw [he]
      exact ⟨e, rfl⟩
    · cases hp : processRow r0 t with
      | error e => exact ⟨e, rfl⟩
      | ok p =>
        simp only [ok_bind]
        obtain ⟨e, he⟩ := ih hmem p.2
        rw [he]
        exact ⟨e, rfl⟩

/-- Splitting the loop over an append: the suffix runs with the totals
produced by the prefix. -/
theorem processRows_append (xs ys : List (List String)) :
    ∀ t : Nat × Nat × Nat, processRows (xs ++ ys) t =
      (processRows xs t).bind fun p =>
      (processRows ys p.2).bind fun q =>
      Except.ok (p.1 ++ q.1, q.2) := by
  induction xs with
  | nil =>
    intro t
    simp [processRows_nil]
    cases processRows ys t with
    | error e => rfl
    | ok q => rfl
  | cons r rs ih =>
    intro t
    rw [List.cons_append, processRows_cons, processRows_cons]
    cases hp : processRow r t with
    | error e => rfl
    | ok p =>
      simp only [ok_bind]
      rw [ih p.2]
      cases hq : processRows rs p.2 with
      | error e => rfl
      | ok q =>
        simp only [ok_bind]
        cases hz : processRows ys q.2 with
        | error e => rfl
        | ok z => simp

/-! ### The record-collection loop -/

/-- When every read succeeds, collection returns exactly the records. -/
theorem collectRecords_map_some (records : List (List String)) :
    collectRecords (records.map some) = Except.ok records := by
  induction records with
  | nil => rfl
  | cons r rs ih =>
    simp only [List.map_cons, collectRecords, ih, ok_bind]

/-- A successfully collected list contains every record whose read
succeeded. -/
theorem collectRecords_ok_mem (raw : List (Option (List String)))
    (records : List (List String))
    (hok : collectRecords raw = Except.ok records)
    (r : List String) (hr : some r ∈ raw) : r ∈ records := by
  induction raw generalizing records with
  | nil => cases hr
  | cons o rest ih =>
    cases o with
    | none => cases hok
    | some a =>
      unfold collectRecords at hok
      cases hc : collectRecords rest with
      | error e => rw [hc] at hok; cases hok
      | ok rs =>
        rw [hc] at hok
        simp only [ok_bind, Except.ok.injEq] at hok
        subst hok
        rcases List.mem_cons.mp hr with heq | hmem
        · cases heq
          exact List.mem_cons_self _ _
        · exact List.mem_cons_of_mem _ (ih rs hc hmem)

/-- If a record that always fails was read successfully somewhere in the
input, the whole fallible part of the transform fails (possibly with an
earlier reader or row error). -/
theorem tfResult_error_of_mem (raw : List (Option (List String)))
    (r : List String) (hr : some r ∈ raw)
    (hf : ∀ t : Nat × Nat × Nat, ∃ e, processRow r t = Except.error e) :
    ∃ e, tfResult raw = Except.error e := by
  unfold tfResult
  cases hc : collectRecords raw with
  | error e => exact ⟨e, rfl⟩
  | ok records =>
    simp only [ok_bind]
    obtain ⟨e, he⟩ :=
      processRows_error_of_mem records r (collectRecords_ok_mem raw records hc r hr) hf (0, 0, 0)
    rw [he]
    exact ⟨e, rfl⟩

/-! ### `addCumulativeRun` as a function of `tfResult` -/

theorem addCumulativeRun_tf_error {raw : List (Option (List String))} {e : TError}
    (h : tfResult raw = Except.error e) (id : Nat) (hs : List String) :
    addCumulativeRun id hs raw = ([], Except.error e) := by
  unfold addCumulativeRun
  rw [h]

theorem addCumulativeRun_tf_ok {raw : List (Option (List String))}
    {rows : List (List String)}
    (h : tfResult raw = Except.ok rows) (id : Nat) (hs : List String) :
    addCumulativeRun id hs raw =
      (Event.createTemp id :: Event.writeTempRow id :: rows.map (fun _ => Event.writeTempRow id),
       Except.ok (hs ++ newHeaderLabels, rows)) := by
  unfold addCumulativeRun
  rw [h]

/-- Inversion: a successful transform means collection and the loop both
succeeded, and the result rows are the loop output. -/
theorem tfResult_ok_inv (raw : List (Option (List String)))
    (rows : List (List String)) (h : tfResult raw = Except.ok rows) :
    ∃ records tf, collectRecords raw = Except.ok records ∧
      processRows records (0, 0, 0) = Except.ok (rows, tf) := by
  unfold tfResult at h
  cases hc : collectRecords raw with
  | error e => rw [hc] at h; cases h
  | ok records =>
    rw [hc] at h
    simp only [ok_bind] at h
    cases hp : processRows records (0, 0, 0) with
    | error e => rw [hp] at h; cases h
    | ok p =>
      rw [hp] at h
      simp only [ok_bind, Except.ok.injEq] at h
      subst h
      exact ⟨records, p.2, rfl, by rw [hp]⟩

/-! ### Traces of the whole run -/

/-- Every event the transform emits concerns its temp artifact. -/
theorem addCumulativeRun_events_temp (id : Nat) (hs : List String)
    (raw : List (Option (List String))) :
    ∀ e ∈ (addCumulativeRun id hs raw).1, isTempEvent e = true := by
  intro e he
  cases htf : tfResult raw with
  | error e0 =>
    rw [addCumulativeRun_tf_error htf] at he
    cases he
  | ok rows =>
    rw [addCumulativeRun_tf_ok htf] at he
    rcases List.mem_cons.mp he with h | h
    · subst h; rfl
    rcases List.mem_cons.mp h with h | h
    · subst h; rfl
    · obtain ⟨_, _, h⟩ := List.mem_map.mp h
      subst h; rfl

/-- Every event of the transform phase concerns a temp artifact. -/
theorem transformPhase_events_temp :
    ∀ (inputs : List (List String × List (Option (List String)))) (id : Nat),
      ∀ e ∈ (transformPhase id inputs).1, isTempEvent e = true := by
  intro inputs
  induction inputs with
  | nil => intro id e he; cases he
  | cons input rest ih =>
    intro id e he
    obtain ⟨hs, raw⟩ := input
    unfold transformPhase at he
    cases hr : (addCumulativeRun id hs raw).2 with
    | error e0 =>
      rw [hr] at he
      exact addCumulativeRun_events_temp id hs raw e he
    | ok v =>
      rw [hr] at he
      rcases List.mem_append.mp he with h | h
      · exact addCumulativeRun_events_temp id hs raw e h
      · exact ih (id + 1) e h

/-- If any input file contains a successfully read record that always makes
the loop body fail, the transform phase aborts (the `unwrap` in the
`FILES.iter().map(...)` panics before the plot loop starts). -/
theorem transformPhase_aborts (inputs : List (List String × List (Option (List String))))
    (h : ∃ input ∈ inputs, ∃ r, some r ∈ input.2 ∧
      ∀ t : Nat × Nat × Nat, ∃ e, processRow r t = Except.error e) :
    ∀ id, (transformPhase id inputs).2 = false := by
  induction inputs with
  | nil => obtain ⟨input, hmem, _⟩ := h; cases hmem
  | cons input rest ih =>
    intro id
    obtain ⟨wit, hmem, r, hr, hf⟩ := h
    obtain ⟨hs, raw⟩ := input
    unfold transformPhase
    cases hres : (addCumulativeRun id hs raw).2 with
    | error e0 => rfl
    | ok v =>
      rcases List.mem_cons.mp hmem with heq | hrest
      · -- the failing record is in this very file: contradiction with success
        subst heq
        obtain ⟨e, he⟩ := tfResult_error_of_mem raw r hr hf
        rw [addCumulativeRun_tf_error he] at hres
        cases hres
      · show (transformPhase (id + 1) rest).2 = false
        exact ih ⟨wit, hrest, r, hr, hf⟩ (id + 1)

/-- Every event of the plot loop is a plot event. -/
theorem plotEvents_are_plot : ∀ e ∈ plotEvents, isPlotEvent e = true := by
  decide

/-- A temp event is never a plot event and never a deletion. -/
theorem isTempEvent_not_plot {e : Event} (h : isTempEvent e = true) :
    isPlotEvent e = false ∧ ∀ id, e ≠ Event.deleteTemp id := by
  cases e <;> simp [isTempEvent, isPlotEvent] at h ⊢

/-- A plot event is never a deletion. -/
theorem isPlotEvent_not_delete {e : Event} (h : isPlotEvent e = true) :
    ∀ id, e ≠ Event.deleteTemp id := by
  cases e <;> simp [isPlotEvent] at h ⊢

/-! ### Prefix sums -/

theorem sumCol_append (k : Nat) (xs ys : List (List String)) :
    sumCol k (xs ++ ys) = sumCol k xs + sumCol k ys := by
  simp [sumCol]

theorem sumCol_take_le (k : Nat) (rs : List (List String)) (i : Nat) :
    sumCol k (rs.take i) ≤ sumCol k rs := by
  conv_rhs => rw [← List.take_append_drop i rs]
  rw [sumCol_append]
  omega

theorem sumCol_take_succ_le (k : Nat) (rs : List (List String)) (i : Nat) :
    sumCol k (rs.take i) ≤ sumCol k (rs.take (i + 1)) := by
  have := sumCol_take_le k (rs.take (i + 1)) i
  rwa [List.take_take, min_eq_left (by omega)] at this

/-- The `u64` value of the `k`-th appended field of output row `i` (the
field at index `length of the original row + k`). -/
def appendedNat (records out : List (List String)) (i k : Nat) : Option Nat :=
  Option.bind (out[i]?.getD [])[(records[i]?.getD []).length + k]? parseU64

/-! ### `str::replace`, modelled on lists of characters

Rust `str::replace(pat, rep)` scans left to right and replaces every
non-overlapping occurrence of `pat` by `rep`.  The scan is modelled with a
fuel argument so that it is structural (any fuel of at least the string
length computes the replacement); the patterns this program replaces are
never empty, and for an empty pattern the model returns the string
unchanged. -/

def replaceFuel (pat rep : List Char) : Nat → List Char → List Char
  | _, [] => []
  | 0, s => s
  | fuel + 1, c :: s =>
    if pat ≠ [] ∧ pat.isPrefixOf (c :: s) then
      rep ++ replaceFuel pat rep fuel ((c :: s).drop pat.length)
    else
      c :: replaceFuel pat rep fuel s

/-- Rust `str::replace` (for the non-empty patterns used here). -/
def replaceL (pat rep s : List Char) : List Char := replaceFuel pat rep s.length s

theorem replaceFuel_irrel (pat rep : List Char) :
    ∀ f1 f2 s, s.length ≤ f1 → s.length ≤ f2 →
      replaceFuel pat rep f1 s = replaceFuel pat rep f2 s := by
  intro f1
  induction f1 with
  | zero =>
    intro f2 s h1 _
    have : s = [] := by
      cases s with
      | nil => rfl
      | cons c cs => simp at h1
    subst this
    cases f2 <;> rfl
  | succ g ih =>
    intro f2 s h1 h2
    cases s with
    | nil => cases f2 <;> rfl
    | cons c cs =>
      cases f2 with
      | zero => simp at h2
      | succ g2 =>
        simp only [List.length_cons] at h1 h2
        simp only [replaceFuel]
        by_cases hcond : pat ≠ [] ∧ pat.isPrefixOf (c :: cs)
        · rw [if_pos hcond, if_pos hcond]
          congr 1
          have hlp : 1 ≤ pat.length := by
            have := hcond.1
            cases pat with
            | nil => simp at this
            | cons p ps => simp
          apply ih
          · simp only [List.length_drop, List.length_cons]
            omega
          · simp only [List.length_drop, List.length_cons]
            omega
        · rw [if_neg hcond, if_neg hcond]
          congr 1
          apply ih
          · omega
          · omega

theorem replaceL_cons (pat rep : List Char) (c : Char) (s : List Char) :
    replaceL pat rep (c :: s) =
      if pat ≠ [] ∧ pat.isPrefixOf (c :: s) then
        rep ++ replaceL pat rep ((c :: s).drop pat.length)
      else
        c :: replaceL pat rep s := by
  show replaceFuel pat rep (s.length + 1) (c :: s) = _
  simp only [replaceFuel]
  by_cases hcond : pat ≠ [] ∧ pat.isPrefixOf (c :: s)
  · rw [if_pos hcond, if_pos hcond]
    congr 1
    have hlp : 1 ≤ pat.length := by
      have := hcond.1
      cases pat with
      | nil => simp at this
      | cons p ps => simp
    apply replaceFuel_irrel
    · simp only [List.length_drop, List.length_cons]
      omega
    · simp
  · rw [if_neg hcond, if_neg hcond]
    rfl

/-- `pat` does not occur in `a ++ t` at any position starting inside `a`. -/
def noStartB (pat : List Char) : List Char → List Char → Bool
  | [], _ => true
  | c :: a, t => !(pat.isPrefixOf (c :: (a ++ t))) && noStartB pat a t

/-- A replacement passes untouched over a block in which no occurrence
starts. -/
theorem replaceL_skip (pat rep : List Char) :
    ∀ a t, noStartB pat a t = true →
      replaceL pat rep (a ++ t) = a ++ replaceL pat rep t := by
  intro a
  induction a with
  | nil => intro t _; simp
  | cons c a ih =>
    intro t h
    simp only [noStartB, Bool.and_eq_true, Bool.not_eq_true'] at h
    rw [List.cons_append, replaceL_cons]
    rw [if_neg (by simp [h.1])]
    rw [ih t h.2]
    simp

/-- Every list is a `isPrefixOf`-prefix of itself followed by anything. -/
theorem isPrefixOf_append_self : ∀ l t : List Char, l.isPrefixOf (l ++ t) = true := by
  intro l
  induction l with
  | nil => intro t; cases t <;> rfl
  | cons c cs ih =>
    intro t
    show (c == c && cs.isPrefixOf (cs ++ t)) = true
    simp [ih]

/-- A replacement fires on a block starting with the pattern. -/
theorem replaceL_head_match (pat rep : List Char) (t : List Char) (hne : pat ≠ []) :
    replaceL pat rep (pat ++ t) = rep ++ replaceL pat rep t := by
  cases pat with
  | nil => cases hne rfl
  | cons p ps =>
    rw [List.cons_append, replaceL_cons]
    rw [if_pos ⟨by simp, by
      rw [← List.cons_append]
      exact isPrefixOf_append_self _ _⟩]
    congr 1
    rw [← List.cons_append, List.drop_left]

theorem replaceL_of_noStart_nil (pat rep a : List Char)
    (h : noStartB pat a [] = true) : replaceL pat rep a = a := by
  have hstep := replaceL_skip pat rep a [] h
  rw [List.append_nil, show replaceL pat rep [] = [] from rfl, List.append_nil] at hstep
  exact hstep

/-- `pat` has a mismatch against `s` strictly inside `s`: then `pat` is not
a prefix of `s ++ t` for any `t`. -/
def mismatchWithin : List Char → List Char → Bool
  | p :: ps, c :: cs => (p != c) || mismatchWithin ps cs
  | _, _ => false

theorem isPrefixOf_eq_false_of_mismatchWithin :
    ∀ pat s : List Char, mismatchWithin pat s = true →
      ∀ t, pat.isPrefixOf (s ++ t) = false := by
  intro pat
  induction pat with
  | nil => intro s h; simp [mismatchWithin] at h
  | cons p ps ih =>
    intro s h t
    cases s with
    | nil => simp [mismatchWithin] at h
    | cons c cs =>
      simp only [mismatchWithin, Bool.or_eq_true, bne_iff_ne] at h
      rw [List.cons_append]
      show (p == c && ps.isPrefixOf (cs ++ t)) = false
      rcases h with h | h
      · simp [h]
      · rw [ih cs h t]
        simp

/-- Decidable sufficient condition on a block alone: every suffix of the
block mismatches the pattern inside the block, so no occurrence can start
in the block whatever follows it. -/
def noStartAll (pat : List Char) : List Char → Bool
  | [] => true
  | c :: s => mismatchWithin pat (c :: s) && noStartAll pat s

theorem noStartB_of_noStartAll (pat : List Char) :
    ∀ a, noStartAll pat a = true → ∀ t, noStartB pat a t = true := by
  intro a
  induction a with
  | nil => intro _ t; rfl
  | cons c a ih =>
    intro h t
    simp only [noStartAll, Bool.and_eq_true] at h
    simp only [noStartB, Bool.and_eq_true, Bool.not_eq_true']
    constructor
    · rw [← List.cons_append]
      exact isPrefixOf_eq_false_of_mismatchWithin pat (c :: a) h.1 t
    · exact ih h.2 t

/-- If the first pattern character never occurs in a block, no occurrence
starts in the block. -/
theorem noStartB_of_head_notMem (pat a : List Char) (p : Char)
    (hp : pat[0]? = some p) (ha : p ∉ a) : ∀ t, noStartB pat a t = true := by
  induction a with
  | nil => intro t; rfl
  | cons c a ih =>
    intro t
    simp only [noStartB, Bool.and_eq_true, Bool.not_eq_true']
    constructor
    · cases pat with
      | nil => simp at hp
      | cons q qs =>
        have hq : q = p := by simpa using hp
        have hcp : (q == c) = false := by
          simp only [beq_eq_false_iff_ne, ne_eq]
          intro he
          apply ha
          rw [← hq, he]
          exact List.mem_cons_self _ _
        show (q == c && qs.isPrefixOf (a ++ t)) = false
        simp [hcp]
    · exact ih (fun hm => ha (List.mem_cons_of_mem _ hm)) t

/-! ### The gnuplot specification templating

The template and the series-clause format string are transcribed verbatim
from the source (`GNUPLOT_TEMPLATE` and the `format!` call in `plot_defs`).
The template is written as the concatenation of its text around the two
placeholders `$YLABEL` and `$PLOTS`; the apostrophes of the
`set datafile separator ','` line are spelled with their ASCII code 39. -/

def PLOTS_PAT : List Char := "$PLOTS".data

def COLUMN_IDX_PAT : List Char := "$COLUMN_IDX".data

def YLABEL_PAT : List Char := "$YLABEL".data

/-- Literal text of the series-clause format string before the path. -/
def SC_OPEN : List Char := "\"".data

/-- Literal text between the path and the column-index placeholder. -/
def SC_MID1 : List Char := "\" using ($0+1):".data

/-- Literal text between the column-index placeholder and the name. -/
def SC_MID2 : List Char := " with linespoints title \"".data

/-- Literal text after the name. -/
def SC_END : List Char := "\", ".data

/-- One series clause with an arbitrary text in the column-index position
(the source emits it with the literal placeholder `$COLUMN_IDX` there). -/
def seriesClauseAt (path name idx : List Char) : List Char :=
  SC_OPEN ++ path ++ SC_MID1 ++ idx ++ SC_MID2 ++ name ++ SC_END

/-- The `format!` call of `plot_defs` for one file: `"{path}" using
($0+1):$COLUMN_IDX with linespoints title "{name}", `. -/
def seriesClause (path name : List Char) : List Char :=
  seriesClauseAt path name COLUMN_IDX_PAT

/-- `Vec::join(" ")`. -/
def joinSpace : List (List Char) → List Char
  | [] => []
  | [x] => x
  | x :: xs => x ++ " ".data ++ joinSpace xs

/-- `plot_defs`: one series clause per (temp-file path, display name) pair,
in list order, joined with single spaces. -/
def plot_defs (files : List (List Char × List Char)) : List Char :=
  joinSpace (files.map fun fn => seriesClause fn.1 fn.2)

/-- The apostrophe character of the `set datafile separator` line. -/
def SQUOTE : List Char := [Char.ofNat 39]

/-- Template text before the `$YLABEL` placeholder. -/
def TEMPLATE_PRE : List Char :=
  "\nset terminal png notransparent rounded giant font \"JetBrains Mono\" 24 \\\n  size 1200,960 \n\n".data
  ++ "set xtics nomirror\nset ytics nomirror\n\n".data
  ++ "set style line 80 lt 0 lc rgb \"#808080\"\n\n".data
  ++ "set border 3 back ls 80 \n\n".data
  ++ "set style line 81 lt 0 lc rgb \"#808080\" lw 0.5\n\n".data
  ++ "set grid xtics\nset grid ytics\nset grid mxtics\nset grid mytics\n\n".data
  ++ "set grid back ls 81\n\n".data
  ++ "set style line 1 lt 1 lc rgb \"#A00000\" lw 2 pt 7 ps 1.5\n".data
  ++ "set style line 2 lt 1 lc rgb \"#00A000\" lw 2 pt 11 ps 1.5\n".data
  ++ "set style line 3 lt 1 lc rgb \"#5060D0\" lw 2 pt 9 ps 1.5\n".data
  ++ "set style line 4 lt 1 lc rgb \"#0000A0\" lw 2 pt 8 ps 1.5\n".data
  ++ "set style line 5 lt 1 lc rgb \"#D0D000\" lw 2 pt 13 ps 1.5\n".data
  ++ "set style line 6 lt 1 lc rgb \"#00D0D0\" lw 2 pt 12 ps 1.5\n".data
  ++ "set style line 7 lt 1 lc rgb \"#B200B2\" lw 2 pt 5 ps 1.5\n\n".data
  ++ "set datafile separator ".data
  ++ SQUOTE ++ ",".data ++ SQUOTE
  ++ "\n\nset xlabel \"call\"\nset ylabel \"".data

/-- Template text between the `$YLABEL` and `$PLOTS` placeholders. -/
def TEMPLATE_MID : List Char := "\"\n\nset xrange [0:1000]\n\nplot ".data

/-- Template text after the `$PLOTS` placeholder. -/
def TEMPLATE_END : List Char := "\n".data

/-- `GNUPLOT_TEMPLATE` of the source. -/
def GNUPLOT_TEMPLATE : List Char :=
  TEMPLATE_PRE ++ YLABEL_PAT ++ TEMPLATE_MID ++ PLOTS_PAT ++ TEMPLATE_END

/-- The gnuplot input `main` builds for one `PLOTS` entry: substitute
`$PLOTS` first, then `$COLUMN_IDX` (also inside the just-inserted series
clauses), then `$YLABEL` (the metric name with underscores turned into
spaces). -/
def mainGnuplot (files : List (List Char × List Char)) (plotName : List Char)
    (columnIdx : Nat) : List Char :=
  replaceL YLABEL_PAT (replaceL "_".data " ".data plotName)
    (replaceL COLUMN_IDX_PAT (natToChars columnIdx)
      (replaceL PLOTS_PAT (plot_defs files) GNUPLOT_TEMPLATE))

set_option maxRecDepth 100000

/-- Claim C3: for the metric `total_instructions` (gnuplot column index 7)
and the fixed two-entry input file list, the generated gnuplot
specification is the template with exactly two series clauses in file-list
order in the `plot` line, one per input file, each plotting `($0+1):7` with
linespoints and each titled with that file's display name; in particular
every `$COLUMN_IDX` placeholder introduced by the plot-definition expansion
has been substituted with `7` (the right-hand side is fully explicit).  The
temp-file paths are arbitrary strings not containing the placeholder sigil
`$`. -/
theorem claim_c3_plot_spec (p1 p2 : List Char) (h1 : '$' ∉ p1) (h2 : '$' ∉ p2) :
    mainGnuplot [(p1, "Simple scheduling".data), (p2, "Smart scheduling".data)]
      "total_instructions".data 7 =
    TEMPLATE_PRE ++ "total instructions".data ++ TEMPLATE_MID ++
      (seriesClauseAt p1 "Simple scheduling".data "7".data ++ " ".data ++
       seriesClauseAt p2 "Smart scheduling".data "7".data) ++ TEMPLATE_END := by
  unfold mainGnuplot GNUPLOT_TEMPLATE
  rw [show natToChars 7 = "7".data from by decide]
  rw [show replaceL "_".data " ".data "total_instructions".data =
        "total instructions".data from by decide]
  simp only [plot_defs, List.map_cons, List.map_nil, joinSpace, seriesClause, seriesClauseAt,
    List.append_assoc]
  -- substitute $PLOTS
  rw [replaceL_skip PLOTS_PAT _ TEMPLATE_PRE _ (noStartB_of_noStartAll _ _ (by decide) _)]
  rw [replaceL_skip PLOTS_PAT _ YLABEL_PAT _ (noStartB_of_noStartAll _ _ (by decide) _)]
  rw [replaceL_skip PLOTS_PAT _ TEMPLATE_MID _ (noStartB_of_noStartAll _ _ (by decide) _)]
  rw [replaceL_head_match PLOTS_PAT _ _ (by decide)]
  rw [replaceL_of_noStart_nil PLOTS_PAT _ TEMPLATE_END (noStartB_of_noStartAll _ _ (by decide) _)]
  simp only [List.append_assoc]
  -- substitute $COLUMN_IDX (twice, inside the inserted series clauses)
  rw [replaceL_skip COLUMN_IDX_PAT _ TEMPLATE_PRE _ (noStartB_of_noStartAll _ _ (by decide) _)]
  rw [replaceL_skip COLUMN_IDX_PAT _ YLABEL_PAT _ (noStartB_of_noStartAll _ _ (by decide) _)]
  rw [replaceL_skip COLUMN_IDX_PAT _ TEMPLATE_MID _ (noStartB_of_noStartAll _ _ (by decide) _)]
  rw [replaceL_skip COLUMN_IDX_PAT _ SC_OPEN _ (noStartB_of_noStartAll _ _ (by decide) _)]
  rw [replaceL_skip COLUMN_IDX_PAT _ p1 _ (noStartB_of_head_notMem _ _ '$' (by decide) h1 _)]
  rw [replaceL_skip COLUMN_IDX_PAT _ SC_MID1 _ (noStartB_of_noStartAll _ _ (by decide) _)]
  rw [replaceL_head_match COLUMN_IDX_PAT _ _ (by decide)]
  rw [replaceL_skip COLUMN_IDX_PAT _ SC_MID2 _ (noStartB_of_noStartAll _ _ (by decide) _)]
  rw [replaceL_skip COLUMN_IDX_PAT _ ("Simple scheduling".data) _
      (noStartB_of_noStartAll _ _ (by decide) _)]
  rw [replaceL_skip COLUMN_IDX_PAT _ SC_END _ (noStartB_of_noStartAll _ _ (by decide) _)]
  rw [replaceL_skip COLUMN_IDX_PAT _ (" ".data) _ (noStartB_of_noStartAll _ _ (by decide) _)]
  rw [replaceL_skip COLUMN_IDX_PAT _ SC_OPEN _ (noStartB_of_noStartAll _ _ (by decide) _)]
  rw [replaceL_skip COLUMN_IDX_PAT _ p2 _ (noStartB_of_head_notMem _ _ '$' (by decide) h2 _)]
  rw [replaceL_skip COLUMN_IDX_PAT _ SC_MID1 _ (noStartB_of_noStartAll _ _ (by decide) _)]
  rw [replaceL_head_match COLUMN_IDX_PAT _ _ (by decide)]
  rw [replaceL_skip COLUMN_IDX_PAT _ SC_MID2 _ (noStartB_of_noStartAll _ _ (by decide) _)]
  rw [replaceL_skip COLUMN_IDX_PAT _ ("Smart scheduling".data) _
      (noStartB_of_noStartAll _ _ (by decide) _)]
  rw [replaceL_skip COLUMN_IDX_PAT _ SC_END _ (noStartB_of_noStartAll _ _ (by decide) _)]
  rw [replaceL_of_noStart_nil COLUMN_IDX_PAT _ TEMPLATE_END
      (noStartB_of_noStartAll _ _ (by decide) _)]
  simp only [List.append_assoc]
  -- substitute $YLABEL
  rw [replaceL_skip YLABEL_PAT _ TEMPLATE_PRE _ (noStartB_of_noStartAll _ _ (by decide) _)]
  rw [replaceL_head_match YLABEL_PAT _ _ (by decide)]
  rw [replaceL_skip YLABEL_PAT _ TEMPLATE_MID _ (noStartB_of_noStartAll _ _ (by decide) _)]
  rw [replaceL_skip YLABEL_PAT _ SC_OPEN _ (noStartB_of_noStartAll _ _ (by decide) _)]
  rw [replaceL_skip YLABEL_PAT _ p1 _ (noStartB_of_head_notMem _ _ '$' (by decide) h1 _)]
  rw [replaceL_skip YLABEL_PAT _ SC_MID1 _ (noStartB_of_noStartAll _ _ (by decide) _)]
  rw [replaceL_skip YLABEL_PAT _ ("7".data) _ (noStartB_of_noStartAll _ _ (by decide) _)]
  rw [replaceL_skip YLABEL_PAT _ SC_MID2 _ (noStartB_of_noStartAll _ _ (by decide) _)]
  rw [replaceL_skip YLABEL_PAT _ ("Simple scheduling".data) _
      (noStartB_of_noStartAll _ _ (by decide) _)]
  rw [replaceL_skip YLABEL_PAT _ SC_END _ (noStartB_of_noStartAll _ _ (by decide) _)]
  rw [replaceL_skip YLABEL_PAT _ (" ".data) _ (noStartB_of_noStartAll _ _ (by decide) _)]
  rw [replaceL_skip YLABEL_PAT _ SC_OPEN _ (noStartB_of_noStartAll _ _ (by decide) _)]
  rw [replaceL_skip YLABEL_PAT _ p2 _ (noStartB_of_head_notMem _ _ '$' (by decide) h2 _)]
  rw [replaceL_skip YLABEL_PAT _ SC_MID1 _ (noStartB_of_noStartAll _ _ (by decide) _)]
  rw [replaceL_skip YLABEL_PAT _ ("7".data) _ (noStartB_of_noStartAll _ _ (by decide) _)]
  rw [replaceL_skip YLABEL_PAT _ SC_MID2 _ (noStartB_of_noStartAll _ _ (by decide) _)]
  rw [replaceL_skip YLABEL_PAT _ ("Smart scheduling".data) _
      (noStartB_of_noStartAll _ _ (by decide) _)]
  rw [replaceL_skip YLABEL_PAT _ SC_END _ (noStartB_of_noStartAll _ _ (by decide) _)]
  rw [replaceL_of_noStart_nil YLABEL_PAT _ TEMPLATE_END
      (noStartB_of_noStartAll _ _ (by decide) _)]

/-- Witness for claim C3 at concrete temp-file paths. -/
theorem claim_c3_plot_spec_witness :
    mainGnuplot [("/tmp/f1".data, "Simple scheduling".data),
                 ("/tmp/f2".data, "Smart scheduling".data)]
      "total_instructions".data 7 =
    TEMPLATE_PRE ++ "total instructions".data ++ TEMPLATE_MID ++
      (seriesClauseAt "/tmp/f1".data "Simple scheduling".data "7".data ++ " ".data ++
       seriesClauseAt "/tmp/f2".data "Smart scheduling".data "7".data) ++ TEMPLATE_END :=
  claim_c3_plot_spec "/tmp/f1".data "/tmp/f2".data (by decide) (by decide)

/-! ### The claims about the cumulative-column transform -/

/-- Claim C1 (amended): for every input whose data rows all have at least 5
columns whose three tracked columns parse as `u64` (values below `2 ^ 64`)
and whose per-metric column sums stay below `2 ^ 64`, the transform
succeeds and appends to every data row `i` (0-based here) the three
cumulative values, each equal to the sum of that metric over rows `0..i`
inclusive, printed in decimal.  The amendment restricts the claim's
"non-negative decimal integers" to values and running sums that fit in the
64-bit accumulators; outside that range the program aborts instead (see the
counterexample). -/
theorem claim_c1_cumulative_sums (id : Nat) (hs : List String)
    (records : List (List String))
    (hwf : ∀ r ∈ records, goodRow r)
    (hb1 : sumCol 2 records < U64MOD) (hb2 : sumCol 3 records < U64MOD)
    (hb3 : sumCol 4 records < U64MOD) :
    ∃ out, (addCumulativeRun id hs (records.map some)).2 =
        Except.ok (hs ++ newHeaderLabels, out) ∧
      out.length = records.length ∧
      ∀ i < records.length, out[i]? = some (records[i]?.getD [] ++
        [natToStr (sumCol 2 (records.take (i + 1))),
         natToStr (sumCol 3 (records.take (i + 1))),
         natToStr (sumCol 4 (records.take (i + 1)))]) := by
  obtain ⟨out, hps, hlen, hidx⟩ :=
    processRows_good_eval records 0 0 0 hwf (by omega) (by omega) (by omega)
  simp only [Nat.zero_add] at hps hidx
  have htf : tfResult (records.map some) = Except.ok out := by
    unfold tfResult
    rw [collectRecords_map_some]
    simp only [ok_bind]
    rw [hps]
    simp only [ok_bind]
  refine ⟨out, ?_, hlen, hidx⟩
  rw [addCumulativeRun_tf_ok htf]

/-- Witness for claim C1 on a concrete two-row file. -/
theorem claim_c1_cumulative_sums_witness :
    ∃ out, (addCumulativeRun 0 ["h"]
        ([["a", "b", "1", "2", "3"], ["c", "d", "10", "20", "30"]].map some)).2 =
        Except.ok (["h"] ++ newHeaderLabels, out) ∧
      out.length = ([["a", "b", "1", "2", "3"], ["c", "d", "10", "20", "30"]] :
        List (List String)).length ∧
      ∀ i < ([["a", "b", "1", "2", "3"], ["c", "d", "10", "20", "30"]] :
        List (List String)).length,
        out[i]? = some (([["a", "b", "1", "2", "3"], ["c", "d", "10", "20", "30"]] :
            List (List String))[i]?.getD [] ++
          [natToStr (sumCol 2 (([["a", "b", "1", "2", "3"],
              ["c", "d", "10", "20", "30"]] : List (List String)).take (i + 1))),
           natToStr (sumCol 3 (([["a", "b", "1", "2", "3"],
              ["c", "d", "10", "20", "30"]] : List (List String)).take (i + 1))),
           natToStr (sumCol 4 (([["a", "b", "1", "2", "3"],
              ["c", "d", "10", "20", "30"]] : List (List String)).take (i + 1)))]) :=
  claim_c1_cumulative_sums 0 ["h"] [["a", "b", "1", "2", "3"], ["c", "d", "10", "20", "30"]]
    (by decide) (by decide) (by decide) (by decide)

/-- Claim C1 as stated is false: rows whose tracked columns are non-negative
decimal integers are not always transformed.  First input: a single
5-column row whose instructions column is the decimal integer `2 ^ 64` — a
perfectly good non-negative decimal integer — makes the transform abort
with a `ParseIntError` instead of appending cumulative columns.  Second
input: two rows whose instruction values individually fit in a `u64` but
whose sum does not; the `+=` aborts (it would wrap modulo `2 ^ 64` in a
release build — under either semantics no row gets the claimed sum
appended). -/
theorem claim_c1_counterexample :
    (addCumulativeRun 0 [] [some ["a", "b", "18446744073709551616", "0", "0"]]).2 =
      Except.error TError.intParseError ∧
    (addCumulativeRun 0 [] [some ["a", "b", "18446744073709551615", "0", "0"],
        some ["a", "b", "1", "0", "0"]]).2 = Except.error TError.overflowPanic :=
  ⟨rfl, rfl⟩

/-- Claim C2 (amended): a data row in which some present tracked column
(1-based position 3, 4 or 5) holds non-integer text makes
`add_cumulative_columns` fail, aborting the whole run (the instructions
column through a propagated `ParseIntError`, the other two through an
`unwrap` panic).  The amendment drops the original claim's assertion that a
row in which position 4 or 5 is absent also fails: it does not (see the
counterexample) — the loop body reads those positions only after pushing
the cumulative fields, so for short rows it silently reads the just-pushed
text instead. -/
theorem claim_c2_parse_failure_fatal (id : Nat) (hs : List String)
    (raw : List (Option (List String)))
    (h : ∃ r, some r ∈ raw ∧ badTracked r = true) :
    ∃ e, (addCumulativeRun id hs raw).2 = Except.error e := by
  obtain ⟨r, hr, hb⟩ := h
  obtain ⟨e, he⟩ := tfResult_error_of_mem raw r hr (processRow_fails_of_badTracked r hb)
  exact ⟨e, by rw [addCumulativeRun_tf_error he]⟩

/-- Witness for claim C2: non-integer text in the instructions column. -/
theorem claim_c2_parse_failure_fatal_witness :
    ∃ e, (addCumulativeRun 0 [] [some ["a", "b", "xyz", "1", "1"]]).2 = Except.error e :=
  claim_c2_parse_failure_fatal 0 [] [some ["a", "b", "xyz", "1", "1"]]
    ⟨["a", "b", "xyz", "1", "1"], by decide, by decide⟩

/-- Claim C2 as stated is false: a data row in which the accessed-host-pages
column (position 4) is absent — here a 3-field row — does not make
`add_cumulative_columns` fail.  The transform succeeds, silently reusing
the just-appended cumulative-instructions text for the missing columns. -/
theorem claim_c2_counterexample :
    (addCumulativeRun 0 ["h1", "h2", "h3"] [some ["a", "b", "7"]]).2 =
      Except.ok (["h1", "h2", "h3"] ++ newHeaderLabels, [["a", "b", "7", "7", "7", "7"]]) ∧
    (["a", "b", "7"] : List String)[3]? = none :=
  ⟨rfl, rfl⟩

/-- Claim C4: every accepted input is transformed into exactly the original
data rows in original order — each with its original fields unchanged, in
original column order, extended by exactly three appended fields — and the
transformed row count equals the input row count. -/
theorem claim_c4_frame (id : Nat) (hs : List String) (raw : List (Option (List String)))
    (hs2 : List String) (out : List (List String))
    (hok : (addCumulativeRun id hs raw).2 = Except.ok (hs2, out)) :
    ∃ records, collectRecords raw = Except.ok records ∧
      out.length = records.length ∧
      ∀ i < records.length, ∃ x y z,
        out[i]? = some (records[i]?.getD [] ++ [x, y, z]) := by
  cases htf : tfResult raw with
  | error e => rw [addCumulativeRun_tf_error htf] at hok; cases hok
  | ok rows =>
    rw [addCumulativeRun_tf_ok htf] at hok
    simp only [Except.ok.injEq, Prod.mk.injEq] at hok
    obtain ⟨-, hrows⟩ := hok
    subst hrows
    obtain ⟨records, tf, hc, hp⟩ := tfResult_ok_inv raw rows htf
    obtain ⟨hlen, hsh⟩ := processRows_shape records (0, 0, 0) (rows, tf) hp
    exact ⟨records, hc, hlen, hsh⟩

/-- Witness for claim C4 on a concrete accepted input. -/
theorem claim_c4_frame_witness :
    ∃ records, collectRecords [some ["a", "b", "1", "2", "3"]] = Except.ok records ∧
      ([["a", "b", "1", "2", "3", "1", "2", "3"]] : List (List String)).length =
        records.length ∧
      ∀ i < records.length, ∃ x y z,
        ([["a", "b", "1", "2", "3", "1", "2", "3"]] : List (List String))[i]? =
          some (records[i]?.getD [] ++ [x, y, z]) :=
  claim_c4_frame 0 ["x"] [some ["a", "b", "1", "2", "3"]] (["x"] ++ newHeaderLabels)
    [["a", "b", "1", "2", "3", "1", "2", "3"]] rfl

/-- Claim C5: for every accepted input whose data rows carry non-negative
integer values in columns 3, 4 and 5, each of the three appended cumulative
columns is monotonically non-decreasing from each data row to the next
(`k < 3` indexes the three appended fields; their parsed values at
consecutive rows satisfy `a ≤ b`).  Acceptance matters: the dev-profile
`+=` aborts on accumulator overflow, so accepted runs never wrap.  (In a
release build the additions would wrap modulo `2 ^ 64` and an overflowing
input would be accepted with a decreasing cumulative column; the claim
holds for the program as run with its default profile.) -/
theorem claim_c5_monotone (id : Nat) (hs : List String) (records : List (List String))
    (hs2 : List String) (out : List (List String))
    (hwf : ∀ r ∈ records, goodRow r)
    (hok : (addCumulativeRun id hs (records.map some)).2 = Except.ok (hs2, out)) :
    ∀ i, i + 1 < records.length → ∀ k < 3,
      ∃ a b, appendedNat records out i k = some a ∧
        appendedNat records out (i + 1) k = some b ∧ a ≤ b := by
  cases htf : tfResult (records.map some) with
  | error e => rw [addCumulativeRun_tf_error htf] at hok; cases hok
  | ok rows =>
    rw [addCumulativeRun_tf_ok htf] at hok
    simp only [Except.ok.injEq, Prod.mk.injEq] at hok
    obtain ⟨-, hrows⟩ := hok
    subst hrows
    obtain ⟨records2, tf, hc, hp⟩ := tfResult_ok_inv _ rows htf
    rw [collectRecords_map_some] at hc
    injection hc with hrec
    subst hrec
    obtain ⟨hb1, hb2, hb3⟩ := processRows_good_bounds records 0 0 0 (rows, tf) hwf hp
      (by norm_num [U64MOD]) (by norm_num [U64MOD]) (by norm_num [U64MOD])
    simp only [Nat.zero_add] at hb1 hb2 hb3
    obtain ⟨out2, hps, hlen, hidx⟩ :=
      processRows_good_eval records 0 0 0 hwf (by omega) (by omega) (by omega)
    simp only [Nat.zero_add] at hps hidx
    rw [hp] at hps
    have hout : rows = out2 := congrArg Prod.fst (Except.ok.inj hps)
    subst hout
    have key : ∀ j, j < records.length → ∀ k, k < 3 →
        appendedNat records rows j k =
          some (sumCol (2 + k) (records.take (j + 1))) := by
      intro j hj k hk
      have hx := hidx j hj
      unfold appendedNat
      rw [hx]
      simp only [Option.getD_some]
      rw [List.getElem?_append_right (Nat.le_add_right _ _)]
      simp only [Nat.add_sub_cancel_left]
      interval_cases k
      · show parseU64 (natToStr (sumCol 2 (records.take (j + 1)))) =
          some (sumCol 2 (records.take (j + 1)))
        exact parseU64_natToStr _ (by
          have := sumCol_take_le 2 records (j + 1)
          omega)
      · show parseU64 (natToStr (sumCol 3 (records.take (j + 1)))) =
          some (sumCol 3 (records.take (j + 1)))
        exact parseU64_natToStr _ (by
          have := sumCol_take_le 3 records (j + 1)
          omega)
      · show parseU64 (natToStr (sumCol 4 (records.take (j + 1)))) =
          some (sumCol 4 (records.take (j + 1)))
        exact parseU64_natToStr _ (by
          have := sumCol_take_le 4 records (j + 1)
          omega)
    intro i hi k hk
    refine ⟨sumCol (2 + k) (records.take (i + 1)), sumCol (2 + k) (records.take (i + 2)),
      key i (by omega) k hk, key (i + 1) (by omega) k hk, ?_⟩
    exact sumCol_take_succ_le (2 + k) records (i + 1)

/-- Witness for claim C5 on a concrete accepted two-row input, at the first
appended column of the first row pair. -/
theorem claim_c5_monotone_witness :
    ∃ a b, appendedNat [["a", "b", "1", "2", "3"], ["a", "b", "1", "2", "3"]]
        [["a", "b", "1", "2", "3", "1", "2", "3"],
         ["a", "b", "1", "2", "3", "2", "4", "6"]] 0 0 = some a ∧
      appendedNat [["a", "b", "1", "2", "3"], ["a", "b", "1", "2", "3"]]
        [["a", "b", "1", "2", "3", "1", "2", "3"],
         ["a", "b", "1", "2", "3", "2", "4", "6"]] (0 + 1) 0 = some b ∧ a ≤ b :=
  claim_c5_monotone 0 ["h"] [["a", "b", "1", "2", "3"], ["a", "b", "1", "2", "3"]]
    (["h"] ++ newHeaderLabels)
    [["a", "b", "1", "2", "3", "1", "2", "3"], ["a", "b", "1", "2", "3", "2", "4", "6"]]
    (by decide) rfl 0 (by decide) 0 (by decide)

/-- Claim C6 (amended): an input containing a data row with fewer than 3
fields always fails and creates no output artifact; the error is the
structural `"CSV record does not have enough columns"` string error
whenever the short row is reached (all rows before it process
successfully).  The amendment concerns the error identity only: when an
earlier row fails first, the run still aborts with no artifact, but with
that earlier row's error (see the counterexample). -/
theorem claim_c6_short_row (id : Nat) (hs : List String)
    (raw : List (Option (List String))) :
    ((∃ r, some r ∈ raw ∧ r.length < 3) →
      (∃ e, (addCumulativeRun id hs raw).2 = Except.error e) ∧
        (addCumulativeRun id hs raw).1 = []) ∧
    (∀ records i p, collectRecords raw = Except.ok records →
      i < records.length → (records[i]?.getD []).length < 3 →
      processRows (records.take i) (0, 0, 0) = Except.ok p →
      (addCumulativeRun id hs raw).2 = Except.error TError.notEnoughColumns ∧
        (addCumulativeRun id hs raw).1 = []) := by
  constructor
  · intro h
    obtain ⟨r, hr, hshort⟩ := h
    obtain ⟨e, he⟩ := tfResult_error_of_mem raw r hr
      (fun t => ⟨TError.notEnoughColumns, processRow_short r t hshort⟩)
    rw [addCumulativeRun_tf_error he]
    exact ⟨⟨e, rfl⟩, rfl⟩
  · intro records i p hc hi hshort hpfx
    have hget : records[i]? = some records[i] := List.getElem?_eq_getElem hi
    have hlen : records[i].length < 3 := by
      have h2 := hshort
      rw [hget] at h2
      simpa using h2
    have hsplit : records.take i ++ records[i] :: records.drop (i + 1) = records := by
      rw [← List.drop_eq_getElem_cons hi]
      exact List.take_append_drop i records
    have hrow : processRows records (0, 0, 0) = Except.error TError.notEnoughColumns := by
      conv_lhs => rw [← hsplit]
      rw [processRows_append, hpfx]
      simp only [ok_bind]
      rw [processRows_cons, processRow_short records[i] p.2 hlen]
      rfl
    have htf : tfResult raw = Except.error TError.notEnoughColumns := by
      unfold tfResult
      rw [hc]
      simp only [ok_bind]
      rw [hrow]
      rfl
    rw [addCumulativeRun_tf_error htf]
    exact ⟨rfl, rfl⟩

/-- Witness for claim C6: a lone 2-field row fails with no artifact. -/
theorem claim_c6_short_row_witness :
    (∃ e, (addCumulativeRun 0 [] [some ["a", "b"]]).2 = Except.error e) ∧
      (addCumulativeRun 0 [] [some ["a", "b"]]).1 = [] :=
  (claim_c6_short_row 0 [] [some ["a", "b"]]).1 ⟨["a", "b"], by decide, by decide⟩

/-- Claim C6 as stated is false about the error identity: an input that
does contain a short data row (the second row, `["a"]`) fails with the
`ParseIntError` of the earlier malformed row, not with the structural
`"CSV record does not have enough columns"` error the claim names. -/
theorem claim_c6_counterexample :
    (addCumulativeRun 0 [] [some ["a", "b", "x", "0", "0"], some ["a"]]).2 =
      Except.error TError.intParseError ∧
    (["a"] : List String).length < 3 ∧
    TError.intParseError ≠ TError.notEnoughColumns :=
  ⟨rfl, by decide, by decide⟩

/-- Claim C7: if any input file contains a data row with non-integer text
in a present tracked column (1-based position 3, 4 or 5), the run aborts
during the transform phase: the phase does not complete, and the trace of
the whole run contains no gnuplot spawn and no PNG write — no plot
specification is ever handed to gnuplot and no image file is written. -/
theorem claim_c7_abort_before_plots
    (inputs : List (List String × List (Option (List String))))
    (h : ∃ input ∈ inputs, ∃ r, some r ∈ input.2 ∧ badTracked r = true) :
    (transformPhase 0 inputs).2 = false ∧
      ∀ e ∈ runMain inputs, isPlotEvent e = false := by
  have hfail : ∃ input ∈ inputs, ∃ r, some r ∈ input.2 ∧
      ∀ t : Nat × Nat × Nat, ∃ e, processRow r t = Except.error e := by
    obtain ⟨inp, hm, r, hr, hb⟩ := h
    exact ⟨inp, hm, r, hr, processRow_fails_of_badTracked r hb⟩
  have hflag := transformPhase_aborts inputs hfail 0
  refine ⟨hflag, ?_⟩
  intro e he
  unfold runMain at he
  rw [hflag] at he
  simp only [Bool.false_eq_true, if_false] at he
  rcases List.mem_append.mp he with hm | hm
  · exact (isTempEvent_not_plot (transformPhase_events_temp inputs 0 e hm)).1
  · obtain ⟨i, -, hi⟩ := List.mem_map.mp hm
    subst hi
    rfl

/-- Witness for claim C7: one malformed file among the two inputs. -/
theorem claim_c7_abort_before_plots_witness :
    (transformPhase 0 [(["h"], [some ["a", "b", "zzz", "1", "1"]]),
        (["h"], [some ["a", "b", "1", "1", "1"]])]).2 = false ∧
      ∀ e ∈ runMain [(["h"], [some ["a", "b", "zzz", "1", "1"]]),
        (["h"], [some ["a", "b", "1", "1", "1"]])], isPlotEvent e = false :=
  claim_c7_abort_before_plots
    [(["h"], [some ["a", "b", "zzz", "1", "1"]]), (["h"], [some ["a", "b", "1", "1", "1"]])]
    ⟨(["h"], [some ["a", "b", "zzz", "1", "1"]]), by decide,
     ["a", "b", "zzz", "1", "1"], by decide, by decide⟩

/-- Claim C8 (amended): the transformed trace files are created by and
owned exclusively by the run, but on every run that completes they are
never discarded: `main` ends with `std::mem::forget(files)`, which prevents
every `NamedTempFile` destructor from running, so no deletion appears
anywhere in the trace of a completed run and the temp files persist on disk
after it — instead of being temporary as the claim states.  (A run that
aborts is different: the panic unwinds and drops the already-created
`NamedTempFile`s, deleting them, as `runMain` models with its trailing
`deleteTemp` events.) -/
theorem claim_c8_completed_run_keeps_temps
    (inputs : List (List String × List (Option (List String)))) (id : Nat)
    (hdone : (transformPhase 0 inputs).2 = true) :
    Event.deleteTemp id ∉ runMain inputs := by
  intro hmem
  unfold runMain at hmem
  rw [if_pos hdone] at hmem
  rcases List.mem_append.mp hmem with hm | hm
  · exact ((isTempEvent_not_plot (transformPhase_events_temp inputs 0 _ hm)).2 id) rfl
  · exact (isPlotEvent_not_delete (plotEvents_are_plot _ hm) id) rfl

/-- Witness for claim C8 (amended) at a concrete completed run. -/
theorem claim_c8_completed_run_keeps_temps_witness :
    Event.deleteTemp 0 ∉ runMain [(["h"], [some ["a", "b", "1", "1", "1"]])] :=
  claim_c8_completed_run_keeps_temps [(["h"], [some ["a", "b", "1", "1", "1"]])] 0
    (by decide)

/-- Claim C8 as stated is false: on a successful concrete run the first
temp artifact is created, yet no deletion of it ever appears in the run's
trace — it is not discarded after plot generation and persists once the
run completes. -/
theorem claim_c8_counterexample :
    Event.createTemp 0 ∈ runMain [(["h"], [some ["a", "b", "1", "1", "1"]]),
        (["h"], [some ["a", "b", "1", "1", "1"]])] ∧
    Event.deleteTemp 0 ∉ runMain [(["h"], [some ["a", "b", "1", "1", "1"]]),
        (["h"], [some ["a", "b", "1", "1", "1"]])] := by
  decide

/-- Claim C9 (amended): the loop body never fails on a 3-field row whose
column 3 parses as a `u64` (given that the accumulator updates stay below
`2 ^ 64`; the dev-profile `+=` panics otherwise): the cumulative-instructions
field is appended before column 4 is read, so the value taken as the raw
accessed-host-pages is the just-appended cumulative-instructions text
(observable as the accessed total becoming `t2 + (t1 + v)`), and the value
then taken as raw dirtied-host-pages is the just-appended
cumulative-accessed text.  For a 4-field row whose columns 3 and 4 parse,
the value taken as the raw dirtied-host-pages is the just-appended
cumulative-INSTRUCTIONS text (the field at index 4, the first pushed one) —
not the cumulative-accessed text the original claim names (see the
counterexample) — so the dirtied total becomes `t3 + (t1 + v)`. -/
theorem claim_c9_shifted_reads :
    (∀ (a b s : String) (v t1 t2 t3 : Nat), parseU64 s = some v →
      t1 + v < U64MOD → t2 + (t1 + v) < U64MOD → t3 + (t2 + (t1 + v)) < U64MOD →
      processRow [a, b, s] (t1, t2, t3) = Except.ok
        ([a, b, s, natToStr (t1 + v), natToStr (t2 + (t1 + v)),
          natToStr (t3 + (t2 + (t1 + v)))],
         (t1 + v, t2 + (t1 + v), t3 + (t2 + (t1 + v))))) ∧
    (∀ (a b s s4 : String) (v w t1 t2 t3 : Nat), parseU64 s = some v →
      parseU64 s4 = some w →
      t1 + v < U64MOD → t2 + w < U64MOD → t3 + (t1 + v) < U64MOD →
      processRow [a, b, s, s4] (t1, t2, t3) = Except.ok
        ([a, b, s, s4, natToStr (t1 + v), natToStr (t2 + w), natToStr (t3 + (t1 + v))],
         (t1 + v, t2 + w, t3 + (t1 + v)))) := by
  constructor
  · intro a b s v t1 t2 t3 hv c1 c2 c3
    unfold processRow
    rw [show ([a, b, s] : List String)[INSTRUCTIONS_COL_IDX - 1]? = some s from rfl]
    simp only [need_some, ok_bind]
    rw [hv]
    simp only [need_some, ok_bind]
    rw [checkedAdd_lt c1]
    simp only [ok_bind]
    rw [show ([a, b, s] ++ [natToStr (t1 + v)])[ACCESSED_HOST_PAGES_COL_IDX - 1]? =
          some (natToStr (t1 + v)) from rfl]
    simp only [need_some, ok_bind]
    rw [parseU64_natToStr _ c1]
    simp only [need_some, ok_bind]
    rw [checkedAdd_lt c2]
    simp only [ok_bind]
    rw [show ([a, b, s] ++ [natToStr (t1 + v)] ++
          [natToStr (t2 + (t1 + v))])[DIRTIED_HOST_PAGES_COL_IDX - 1]? =
          some (natToStr (t2 + (t1 + v))) from rfl]
    simp only [need_some, ok_bind]
    rw [parseU64_natToStr _ c2]
    simp only [need_some, ok_bind]
    rw [checkedAdd_lt c3]
    simp only [ok_bind]
    rfl
  · intro a b s s4 v w t1 t2 t3 hv hw c1 c2 c3
    unfold processRow
    rw [show ([a, b, s, s4] : List String)[INSTRUCTIONS_COL_IDX - 1]? = some s from rfl]
    simp only [need_some, ok_bind]
    rw [hv]
    simp only [need_some, ok_bind]
    rw [checkedAdd_lt c1]
    simp only [ok_bind]
    rw [show ([a, b, s, s4] ++ [natToStr (t1 + v)])[ACCESSED_HOST_PAGES_COL_IDX - 1]? =
          some s4 from rfl]
    simp only [need_some, ok_bind]
    rw [hw]
    simp only [need_some, ok_bind]
    rw [checkedAdd_lt c2]
    simp only [ok_bind]
    rw [show ([a, b, s, s4] ++ [natToStr (t1 + v)] ++
          [natToStr (t2 + w)])[DIRTIED_HOST_PAGES_COL_IDX - 1]? =
          some (natToStr (t1 + v)) from rfl]
    simp only [need_some, ok_bind]
    rw [parseU64_natToStr _ c1]
    simp only [need_some, ok_bind]
    rw [checkedAdd_lt c3]
    simp only [ok_bind]
    rfl

/-- Witness for claim C9: a 3-field row and a 4-field row, both transformed
without failure and with the shifted reads visible in the totals. -/
theorem claim_c9_shifted_reads_witness :
    processRow ["a", "b", "5"] (0, 0, 0) = Except.ok
      (["a", "b", "5", natToStr (0 + 5), natToStr (0 + (0 + 5)),
        natToStr (0 + (0 + (0 + 5)))],
       (0 + 5, 0 + (0 + 5), 0 + (0 + (0 + 5)))) ∧
    processRow ["a", "b", "10", "7"] (0, 0, 0) = Except.ok
      (["a", "b", "10", "7", natToStr (0 + 10), natToStr (0 + 7), natToStr (0 + (0 + 10))],
       (0 + 10, 0 + 7, 0 + (0 + 10))) :=
  ⟨claim_c9_shifted_reads.1 "a" "b" "5" 5 0 0 0 (by decide) (by decide) (by decide)
     (by decide),
   claim_c9_shifted_reads.2 "a" "b" "10" "7" 10 7 0 0 0 (by decide) (by decide)
     (by decide) (by decide) (by decide)⟩

/-- Claim C9 as stated is false about the 4-field case: on the row
`a,b,10,7` with zeroed accumulators the claim predicts the raw
dirtied-host-pages value to be the just-appended cumulative-ACCESSED text
(`7`, making the dirtied total 7), but the code reads index 4, which after
the two pushes holds the cumulative-INSTRUCTIONS text, so the dirtied total
is 10 — and 10 is not 7. -/
theorem claim_c9_counterexample :
    processRow ["a", "b", "10", "7"] (0, 0, 0) =
      Except.ok (["a", "b", "10", "7", "10", "7", "10"], (10, 7, 10)) ∧
    (10 : Nat) ≠ 7 :=
  ⟨rfl, by decide⟩

/-- Claim C10: the output temp artifact is created exactly when the whole
fallible part of the transform (reading every record and augmenting every
row) has succeeded: the trace contains the creation event if and only if
the result is a success, and on any error (CSV read error, missing
instructions column, parse failure, panic) the trace is empty — no temp
file was ever created. -/
theorem claim_c10_artifact_iff_success (id : Nat) (hs : List String)
    (raw : List (Option (List String))) :
    (okB (addCumulativeRun id hs raw).2 = true ↔
      Event.createTemp id ∈ (addCumulativeRun id hs raw).1) ∧
    (∀ e, (addCumulativeRun id hs raw).2 = Except.error e →
      (addCumulativeRun id hs raw).1 = []) := by
  cases htf : tfResult raw with
  | error e0 =>
    rw [addCumulativeRun_tf_error htf]
    constructor
    · simp [okB]
    · intro e _
      rfl
  | ok rows =>
    rw [addCumulativeRun_tf_ok htf]
    constructor
    · simp [okB]
    · intro e he
      simp at he

/-- Witness for claim C10: a reader error yields an empty trace. -/
theorem claim_c10_artifact_iff_success_witness :
    (addCumulativeRun 0 [] [none]).1 = [] :=
  (claim_c10_artifact_iff_success 0 [] [none]).2 TError.csvRead rfl

end DrunPlots
